import Mathlib

/-!
# Verification of the sillasadmin reservation/availability engine

Shallow embedding of the server core of the `sillasadmin` repository:

* `src/server/storage.ts` — `MemStorage` (wheelchairs, clients, reservations,
  availability, dashboard stats, rental counter);
* `src/server/routes.ts` — the HTTP handlers for `POST /reservations`,
  `PUT /reservations/:id`, `PUT /clients/:id` and the other CRUD routes;
* the shared drizzle/zod schema (wheelchair, client and reservation shapes and
  the request-body validation schemas).

Modelling conventions:

* JS `Date` values are compared by timestamp; calendar dates are therefore
  modelled as integers (`JSDate := Int`), an order-isomorphic embedding.
  `Client.registerDate` is a `date` column read back as a string and never
  compared, so it stays a `String`.
* JS `Map<number, V>` keyed by the entity's own `id` field is modelled as a
  `List V` with `mapGet`/`mapSet`/`mapDel` keyed by that field; `mapSet`
  replaces in place (preserving insertion order, as JS `Map.set` does) or
  appends a fresh entry.
* The zod body schemas determine which fields a parsed request body can carry.
  `reservationSchema` picks only `clientId, wheelchairId, startDate, endDate,
  notes` — it has no `status` field, and a zod object strips unknown keys on
  `parse`, so the `status` key of a `PUT /reservations/:id` body never reaches
  the handler.  This is modelled by `stripResPatch`.
  `clientSchema` picks all client columns including `registerDate`, so a
  client patch can carry `registerDate`.
* JS truthiness in the `PUT /reservations/:id` guard
  (`req.body.startDate || req.body.endDate || req.body.wheelchairId`) and in
  `req.body.wheelchairId || existingReservation.wheelchairId`: a present `Date`
  object is always truthy, a present number is truthy iff it is nonzero.
  This is modelled by `Option.isSome` for the dates and by `natTruthy` /
  `jsOrNat` for the wheelchair id.
-/

namespace Sillas

/-- JS `Date` values, modelled by their timestamp (an integer).  All date
comparisons in the source are `Date` comparisons, i.e. timestamp comparisons,
so any order-isomorphic integer encoding is faithful. -/
abbrev JSDate := Int

/-- A readable order-preserving encoding of a calendar date `y-m-d` as a
`JSDate`, used only to build concrete example states. -/
def mkDate (y m d : Int) : JSDate := y * 10000 + m * 100 + d

/-! ## Data model (shared schema, `src/unnamed/part_007`) -/

/-- Row of the `wheelchairs` table. -/
structure Wheelchair where
  id : Nat
  model : String
  brand : String
  year : Int
  motor : String
  rentalCount : Nat
  wheelSize : String
  lastService : Option JSDate
  deriving Repr, DecidableEq

/-- `InsertWheelchair` (the `insertWheelchairSchema` pick: no `id`, no
`rentalCount`). -/
structure InsertWheelchair where
  model : String
  brand : String
  year : Int
  motor : String
  wheelSize : String
  lastService : Option JSDate
  deriving Repr, DecidableEq

/-- A `PUT /wheelchairs/:id` body (`wheelchairSchema.partial()`): every
insert-schema field optional; unknown keys (in particular `id` and
`rentalCount`) are stripped by zod. -/
structure WheelchairPatch where
  model : Option String := none
  brand : Option String := none
  year : Option Int := none
  motor : Option String := none
  wheelSize : Option String := none
  lastService : Option (Option JSDate) := none
  deriving Repr, DecidableEq

/-- Row of the `clients` table. -/
structure Client where
  id : Nat
  firstName : String
  lastName : String
  dni : String
  address : String
  phone : String
  email : String
  registerDate : String
  city : String
  country : String
  deriving Repr, DecidableEq

/-- `InsertClient` (the `insertClientSchema` pick: every column except `id`,
including `registerDate`). -/
structure InsertClient where
  firstName : String
  lastName : String
  dni : String
  address : String
  phone : String
  email : String
  registerDate : String
  city : String
  country : String
  deriving Repr, DecidableEq

/-- A `PUT /clients/:id` body (`clientSchema.partial()`): every insert-schema
field optional.  Note that `registerDate` IS part of the schema, so a client
patch can carry it. -/
structure ClientPatch where
  firstName : Option String := none
  lastName : Option String := none
  dni : Option String := none
  address : Option String := none
  phone : Option String := none
  email : Option String := none
  registerDate : Option String := none
  city : Option String := none
  country : Option String := none
  deriving Repr, DecidableEq

/-- Row of the `reservations` table. -/
structure Reservation where
  id : Nat
  clientId : Nat
  wheelchairId : Nat
  startDate : JSDate
  endDate : JSDate
  status : String
  notes : Option String
  deriving Repr, DecidableEq

/-- `InsertReservation` / a parsed `POST /reservations` body
(`reservationSchema`): `clientId, wheelchairId, startDate, endDate, notes` —
no `id`, no `status`. -/
structure InsertReservation where
  clientId : Nat
  wheelchairId : Nat
  startDate : JSDate
  endDate : JSDate
  notes : Option String := none
  deriving Repr, DecidableEq

/-- A raw `PUT /reservations/:id` body as sent by a client, before zod
validation.  The `status` field is representable here (the frontend form does
send one), but `reservationSchema.partial()` does not contain `status`, so
zod strips it: see `stripResPatch`. -/
structure ResPatch where
  clientId : Option Nat := none
  wheelchairId : Option Nat := none
  startDate : Option JSDate := none
  endDate : Option JSDate := none
  status : Option String := none
  notes : Option (Option String) := none
  deriving Repr, DecidableEq

/-- `req.body = reservationSchema.partial().parse(req.body)`: the schema has
no `status` key, and zod objects strip unknown keys, so the parsed body never
carries `status`. -/
def stripResPatch (p : ResPatch) : ResPatch := { p with status := none }

/-- `AvailabilityResult` of the shared schema. -/
structure AvailabilityResult where
  available : Bool
  availableWheelchairs : List Wheelchair
  deriving Repr, DecidableEq

/-- `DashboardStats` of the shared schema.  `availableWheelchairs` is an
integer because the JS subtraction can go negative when active reservations
reference wheelchairs that were deleted. -/
structure DashboardStats where
  availableWheelchairs : Int
  totalWheelchairs : Nat
  activeReservations : Nat
  totalClients : Nat
  deriving Repr, DecidableEq

/-! ## JS `Map` keyed by the stored record's `id` field -/

/-- `Map.get`. -/
def mapGet (key : α → Nat) (l : List α) (k : Nat) : Option α :=
  l.find? (fun x => key x == k)

/-- `Map.set`: replace the entry with the same key in place, else append. -/
def mapSet (key : α → Nat) (l : List α) (v : α) : List α :=
  match l with
  | [] => [v]
  | x :: t => if key x == key v then v :: t else x :: mapSet key t v

/-- `Map.delete`: remove the entry with the given key; the `Bool` is whether
an entry was removed. -/
def mapDel (key : α → Nat) (l : List α) (k : Nat) : Bool × List α :=
  match l with
  | [] => (false, [])
  | x :: t =>
    if key x == k then (true, t)
    else
      let r := mapDel key t k
      (r.1, x :: r.2)

/-! ## The `MemStorage` state (`src/server/storage.ts`) -/

/-- The private fields of `MemStorage`. -/
structure StoreState where
  wheelchairsData : List Wheelchair
  clientsData : List Client
  reservationsData : List Reservation
  wheelchairCurrentId : Nat
  clientCurrentId : Nat
  reservationCurrentId : Nat
  deriving Repr, DecidableEq

/-- `MemStorage.getWheelchair`. -/
def getWheelchair (st : StoreState) (id : Nat) : Option Wheelchair :=
  mapGet (·.id) st.wheelchairsData id

/-- `MemStorage.getClient`. -/
def getClient (st : StoreState) (id : Nat) : Option Client :=
  mapGet (·.id) st.clientsData id

/-- `MemStorage.getReservation`. -/
def getReservation (st : StoreState) (id : Nat) : Option Reservation :=
  mapGet (·.id) st.reservationsData id

/-- `MemStorage.createWheelchair`. -/
def createWheelchair (st : StoreState) (w : InsertWheelchair) :
    Wheelchair × StoreState :=
  let id := st.wheelchairCurrentId
  let newWheelchair : Wheelchair :=
    { id := id, model := w.model, brand := w.brand, year := w.year,
      motor := w.motor, rentalCount := 0, wheelSize := w.wheelSize,
      lastService := w.lastService }
  (newWheelchair,
    { st with
      wheelchairsData := mapSet (·.id) st.wheelchairsData newWheelchair
      wheelchairCurrentId := id + 1 })

/-- `{...existingWheelchair, ...wheelchair}`. -/
def mergeWheelchair (ex : Wheelchair) (p : WheelchairPatch) : Wheelchair :=
  { id := ex.id
    model := p.model.getD ex.model
    brand := p.brand.getD ex.brand
    year := p.year.getD ex.year
    motor := p.motor.getD ex.motor
    rentalCount := ex.rentalCount
    wheelSize := p.wheelSize.getD ex.wheelSize
    lastService := p.lastService.getD ex.lastService }

/-- `MemStorage.updateWheelchair`. -/
def updateWheelchair (st : StoreState) (id : Nat) (p : WheelchairPatch) :
    Option Wheelchair × StoreState :=
  match mapGet (·.id) st.wheelchairsData id with
  | none => (none, st)
  | some ex =>
    let updated := mergeWheelchair ex p
    (some updated,
      { st with wheelchairsData := mapSet (·.id) st.wheelchairsData updated })

/-- `MemStorage.deleteWheelchair`. -/
def deleteWheelchair (st : StoreState) (id : Nat) : Bool × StoreState :=
  let r := mapDel (·.id) st.wheelchairsData id
  (r.1, { st with wheelchairsData := r.2 })

/-- `MemStorage.createClient`. -/
def createClient (st : StoreState) (c : InsertClient) : Client × StoreState :=
  let id := st.clientCurrentId
  let newClient : Client :=
    { id := id, firstName := c.firstName, lastName := c.lastName,
      dni := c.dni, address := c.address, phone := c.phone, email := c.email,
      registerDate := c.registerDate, city := c.city, country := c.country }
  (newClient,
    { st with
      clientsData := mapSet (·.id) st.clientsData newClient
      clientCurrentId := id + 1 })

/-- `{...existingClient, ...client}`. -/
def mergeClient (ex : Client) (p : ClientPatch) : Client :=
  { id := ex.id
    firstName := p.firstName.getD ex.firstName
    lastName := p.lastName.getD ex.lastName
    dni := p.dni.getD ex.dni
    address := p.address.getD ex.address
    phone := p.phone.getD ex.phone
    email := p.email.getD ex.email
    registerDate := p.registerDate.getD ex.registerDate
    city := p.city.getD ex.city
    country := p.country.getD ex.country }

/-- `MemStorage.updateClient`. -/
def updateClient (st : StoreState) (id : Nat) (p : ClientPatch) :
    Option Client × StoreState :=
  match mapGet (·.id) st.clientsData id with
  | none => (none, st)
  | some ex =>
    let updated := mergeClient ex p
    (some updated,
      { st with clientsData := mapSet (·.id) st.clientsData updated })

/-- `MemStorage.deleteClient`. -/
def deleteClient (st : StoreState) (id : Nat) : Bool × StoreState :=
  let r := mapDel (·.id) st.clientsData id
  (r.1, { st with clientsData := r.2 })

/-- `MemStorage.incrementWheelchairRentalCount`.  (The source writes
`(wheelchair.rentalCount || 0) + 1`; `rentalCount` is always a number in
`MemStorage`, and `0 || 0 = 0`, so this is `rentalCount + 1`.) -/
def incrementWheelchairRentalCount (st : StoreState) (id : Nat) :
    Bool × StoreState :=
  match getWheelchair st id with
  | none => (false, st)
  | some w =>
    let w' := { w with rentalCount := w.rentalCount + 1 }
    (true, { st with wheelchairsData := mapSet (·.id) st.wheelchairsData w' })

/-- `MemStorage.createReservation`: insert with a fresh id and status
`"active"`, then increment the referenced wheelchair's rental count (the
increment silently does nothing when the wheelchair id does not resolve). -/
def createReservation (st : StoreState) (r : InsertReservation) :
    Reservation × StoreState :=
  let id := st.reservationCurrentId
  let newReservation : Reservation :=
    { id := id, clientId := r.clientId, wheelchairId := r.wheelchairId,
      startDate := r.startDate, endDate := r.endDate, status := "active",
      notes := r.notes }
  let st1 :=
    { st with
      reservationsData := mapSet (·.id) st.reservationsData newReservation
      reservationCurrentId := id + 1 }
  (newReservation, (incrementWheelchairRentalCount st1 r.wheelchairId).2)

/-- `{...existingReservation, ...reservation}` for a parsed reservation body.
The body object can only hold the keys of `ResPatch` (everything else is
stripped by zod), and in particular never an `id`. -/
def mergeReservation (ex : Reservation) (p : ResPatch) : Reservation :=
  { id := ex.id
    clientId := p.clientId.getD ex.clientId
    wheelchairId := p.wheelchairId.getD ex.wheelchairId
    startDate := p.startDate.getD ex.startDate
    endDate := p.endDate.getD ex.endDate
    status := p.status.getD ex.status
    notes := p.notes.getD ex.notes }

/-- `MemStorage.updateReservation`. -/
def updateReservation (st : StoreState) (id : Nat) (p : ResPatch) :
    Option Reservation × StoreState :=
  match mapGet (·.id) st.reservationsData id with
  | none => (none, st)
  | some ex =>
    let updated := mergeReservation ex p
    (some updated,
      { st with reservationsData := mapSet (·.id) st.reservationsData updated })

/-- `MemStorage.deleteReservation`. -/
def deleteReservation (st : StoreState) (id : Nat) : Bool × StoreState :=
  let r := mapDel (·.id) st.reservationsData id
  (r.1, { st with reservationsData := r.2 })

/-- `MemStorage.getActiveReservations`.  The source reads `new Date()`; the
current time is passed explicitly as `today`. -/
def getActiveReservations (st : StoreState) (today : JSDate) :
    List Reservation :=
  st.reservationsData.filter
    (fun r => r.status == "active" && decide (today ≤ r.endDate))

/-- `MemStorage.checkAvailability`: active reservations overlapping the query
range (inclusively) mark their wheelchair ids reserved; the available
wheelchairs are those not marked.  Pure: no store mutation. -/
def checkAvailability (st : StoreState) (startDate endDate : JSDate) :
    AvailabilityResult :=
  let overlappingReservations := st.reservationsData.filter
    (fun r =>
      (decide (startDate ≤ r.endDate) && decide (r.startDate ≤ endDate)) &&
      r.status == "active")
  let reservedWheelchairIds := overlappingReservations.map (·.wheelchairId)
  let availableWheelchairs := st.wheelchairsData.filter
    (fun w => !(reservedWheelchairIds.contains w.id))
  { available := availableWheelchairs.length > 0
    availableWheelchairs := availableWheelchairs }

/-- `MemStorage.getDashboardStats` (`new Date()` passed explicitly as
`today`).  The JS `Set` of reserved wheelchair ids is modelled by `dedup`;
its size is the number of distinct ids. -/
def getDashboardStats (st : StoreState) (today : JSDate) : DashboardStats :=
  let activeReservations := st.reservationsData.filter
    (fun r => r.status == "active" && decide (today ≤ r.endDate))
  let reservedWheelchairIds := (activeReservations.map (·.wheelchairId)).dedup
  let totalWheelchairs := st.wheelchairsData.length
  { availableWheelchairs :=
      (totalWheelchairs : Int) - (reservedWheelchairIds.length : Int)
    totalWheelchairs := totalWheelchairs
    activeReservations := activeReservations.length
    totalClients := st.clientsData.length }

/-! ## Initial state (`MemStorage` constructor + `initializeData`) -/

/-- The 15 wheelchairs seeded by `initializeData` (service dates under the
`mkDate` encoding). -/
def initialWheelchairInserts : List InsertWheelchair :=
  [ ⟨"XR-500", "MobilityPlus", 2022, "350W", "12\"", some (mkDate 2023 1 15)⟩,
    ⟨"CT-200", "EasyRide", 2021, "280W", "10\"", some (mkDate 2023 2 10)⟩,
    ⟨"ZT-800", "PowerMove", 2023, "450W", "14\"", some (mkDate 2023 3 5)⟩,
    ⟨"EV-100", "MobilityPlus", 2022, "300W", "12\"", some (mkDate 2023 1 20)⟩,
    ⟨"LX-400", "ComfortGlide", 2021, "320W", "11\"", some (mkDate 2023 2 15)⟩,
    ⟨"RT-600", "PowerMove", 2023, "400W", "13\"", some (mkDate 2023 3 10)⟩,
    ⟨"JN-300", "MobilityPlus", 2022, "280W", "10\"", some (mkDate 2023 1 25)⟩,
    ⟨"FT-700", "EasyRide", 2021, "420W", "14\"", some (mkDate 2023 2 20)⟩,
    ⟨"GX-250", "ComfortGlide", 2023, "270W", "11\"", some (mkDate 2023 3 15)⟩,
    ⟨"VZ-150", "PowerMove", 2022, "250W", "10\"", some (mkDate 2023 1 30)⟩,
    ⟨"KS-550", "MobilityPlus", 2021, "380W", "12\"", some (mkDate 2023 2 25)⟩,
    ⟨"PT-900", "EasyRide", 2023, "470W", "15\"", some (mkDate 2023 3 20)⟩,
    ⟨"DL-350", "ComfortGlide", 2022, "310W", "11\"", some (mkDate 2023 1 5)⟩,
    ⟨"QR-450", "PowerMove", 2021, "340W", "12\"", some (mkDate 2023 2 5)⟩,
    ⟨"BZ-650", "MobilityPlus", 2023, "410W", "13\"", some (mkDate 2023 3 25)⟩ ]

/-- The store state right after the `MemStorage` constructor ran: empty maps,
counters at 1, then the 15 seed wheelchairs created. -/
def initialState : StoreState :=
  initialWheelchairInserts.foldl (fun st w => (createWheelchair st w).2)
    { wheelchairsData := [], clientsData := [], reservationsData := [],
      wheelchairCurrentId := 1, clientCurrentId := 1, reservationCurrentId := 1 }

/-! ## Route layer (`src/server/routes.ts`)

Each handler is a function from the current store state and the parsed request
to a result and the next store state (unchanged on rejection).  The 4xx
responses of the handlers are the `RouteError` constructors. -/

/-- The 400/404 error responses of the reservation/client routes. -/
inductive RouteError where
  /-- 400 "Client not found" (POST /reservations). -/
  | clientNotFound
  /-- 400 "Wheelchair not found" (POST /reservations). -/
  | wheelchairNotFound
  /-- 400 "End date must be after start date". -/
  | invalidDateRange
  /-- 400 "Wheelchair is not available for the requested dates". -/
  | notAvailable
  /-- 404 "... not found". -/
  | notFound
  deriving Repr, DecidableEq

/-- A route outcome: the JSON success payload or a 4xx error. -/
abbrev RouteResult (α : Type) := Except RouteError α

deriving instance DecidableEq for Except

/-- JS truthiness of `req.body.wheelchairId`: absent (`undefined`) and `0` are
falsy, any other number is truthy. -/
def natTruthy (o : Option Nat) : Bool := o.getD 0 != 0

/-- `req.body.wheelchairId || d`: the body value if truthy, else `d`. -/
def jsOrNat (o : Option Nat) (d : Nat) : Nat :=
  if o.getD 0 != 0 then o.getD 0 else d

/-- `POST /wheelchairs`. -/
def postWheelchair (st : StoreState) (body : InsertWheelchair) :
    RouteResult Wheelchair × StoreState :=
  let r := createWheelchair st body
  (.ok r.1, r.2)

/-- `PUT /wheelchairs/:id`. -/
def putWheelchair (st : StoreState) (id : Nat) (body : WheelchairPatch) :
    RouteResult Wheelchair × StoreState :=
  match updateWheelchair st id body with
  | (none, st') => (.error .notFound, st')
  | (some w, st') => (.ok w, st')

/-- `DELETE /wheelchairs/:id`. -/
def deleteWheelchairRoute (st : StoreState) (id : Nat) :
    RouteResult Unit × StoreState :=
  match deleteWheelchair st id with
  | (false, st') => (.error .notFound, st')
  | (true, st') => (.ok (), st')

/-- `POST /clients`. -/
def postClient (st : StoreState) (body : InsertClient) :
    RouteResult Client × StoreState :=
  let r := createClient st body
  (.ok r.1, r.2)

/-- `PUT /clients/:id`: merge the patch into the stored client (404 when the
id does not resolve).  The patch may carry any `clientSchema` field, including
`registerDate`. -/
def putClient (st : StoreState) (id : Nat) (body : ClientPatch) :
    RouteResult Client × StoreState :=
  match updateClient st id body with
  | (none, st') => (.error .notFound, st')
  | (some c, st') => (.ok c, st')

/-- `DELETE /clients/:id`. -/
def deleteClientRoute (st : StoreState) (id : Nat) :
    RouteResult Unit × StoreState :=
  match deleteClient st id with
  | (false, st') => (.error .notFound, st')
  | (true, st') => (.ok (), st')

/-- The availability test of the `POST /reservations` handler:
`availability.availableWheelchairs.some(w => w.id === req.body.wheelchairId)`.
-/
def wheelchairAvailableFor (st : StoreState) (wheelchairId : Nat)
    (startDate endDate : JSDate) : Bool :=
  (checkAvailability st startDate endDate).availableWheelchairs.any
    (fun w => w.id == wheelchairId)

/-- `POST /reservations`: client exists, wheelchair exists, start strictly
before end, wheelchair available — first failure wins — then
`storage.createReservation`. -/
def postReservation (st : StoreState) (body : InsertReservation) :
    RouteResult Reservation × StoreState :=
  match getClient st body.clientId with
  | none => (.error .clientNotFound, st)
  | some _ =>
    match getWheelchair st body.wheelchairId with
    | none => (.error .wheelchairNotFound, st)
    | some _ =>
      if body.startDate ≥ body.endDate then (.error .invalidDateRange, st)
      else if wheelchairAvailableFor st body.wheelchairId body.startDate
          body.endDate then
        let r := createReservation st body
        (.ok r.1, r.2)
      else (.error .notAvailable, st)

/-- The overlap filter of the `PUT /reservations/:id` handler: all stored
reservations other than the one being edited, on the effective wheelchair,
active, and inclusively overlapping the effective range. -/
def updateOverlaps (st : StoreState) (id wheelchairId : Nat)
    (startDate endDate : JSDate) : List Reservation :=
  st.reservationsData.filter
    (fun r =>
      r.id != id && r.wheelchairId == wheelchairId && r.status == "active" &&
      decide (r.startDate ≤ endDate) && decide (startDate ≤ r.endDate))

/-- `PUT /reservations/:id`.  The parsed body is `stripResPatch raw` (zod
strips `status`).  When the body carries a (truthy) start date, end date or
wheelchair id and does not set status `"cancelled"` (which, `status` being
stripped, it never does), the handler resolves the existing reservation,
computes the effective dates and wheelchair (`||` fallbacks), re-validates
the range and rejects on any overlap with another active reservation; then it
merges the patch via `storage.updateReservation`.  (The handler also calls
`storage.checkAvailability` here; its result is unused.) -/
def putReservation (st : StoreState) (id : Nat) (raw : ResPatch) :
    RouteResult Reservation × StoreState :=
  let body := stripResPatch raw
  if (body.startDate.isSome || body.endDate.isSome ||
        natTruthy body.wheelchairId) &&
      !(body.status == some "cancelled") then
    match getReservation st id with
    | none => (.error .notFound, st)
    | some existingReservation =>
      let startDate := body.startDate.getD existingReservation.startDate
      let endDate := body.endDate.getD existingReservation.endDate
      let wheelchairId := jsOrNat body.wheelchairId
        existingReservation.wheelchairId
      if startDate ≥ endDate then (.error .invalidDateRange, st)
      else if (updateOverlaps st id wheelchairId startDate endDate).length > 0
        then (.error .notAvailable, st)
      else
        match updateReservation st id body with
        | (none, st') => (.error .notFound, st')
        | (some r, st') => (.ok r, st')
  else
    match updateReservation st id body with
    | (none, st') => (.error .notFound, st')
    | (some r, st') => (.ok r, st')

/-- `DELETE /reservations/:id`. -/
def deleteReservationRoute (st : StoreState) (id : Nat) :
    RouteResult Unit × StoreState :=
  match deleteReservation st id with
  | (false, st') => (.error .notFound, st')
  | (true, st') => (.ok (), st')

/-! ## Reachability

One step per mutating route.  A rejected request leaves the state unchanged,
so including every request (accepted or not) in the step relation yields a
reachable set that contains every state reachable through accepted requests.
-/

/-- One mutating HTTP request processed against the store. -/
inductive RouteStep : StoreState → StoreState → Prop where
  | postWheelchairStep (st : StoreState) (b : InsertWheelchair) :
      RouteStep st (postWheelchair st b).2
  | putWheelchairStep (st : StoreState) (id : Nat) (b : WheelchairPatch) :
      RouteStep st (putWheelchair st id b).2
  | deleteWheelchairStep (st : StoreState) (id : Nat) :
      RouteStep st (deleteWheelchairRoute st id).2
  | postClientStep (st : StoreState) (b : InsertClient) :
      RouteStep st (postClient st b).2
  | putClientStep (st : StoreState) (id : Nat) (b : ClientPatch) :
      RouteStep st (putClient st id b).2
  | deleteClientStep (st : StoreState) (id : Nat) :
      RouteStep st (deleteClientRoute st id).2
  | postReservationStep (st : StoreState) (b : InsertReservation) :
      RouteStep st (postReservation st b).2
  | putReservationStep (st : StoreState) (id : Nat) (b : ResPatch) :
      RouteStep st (putReservation st id b).2
  | deleteReservationStep (st : StoreState) (id : Nat) :
      RouteStep st (deleteReservationRoute st id).2

/-- States reachable from the freshly constructed `MemStorage` by any
sequence of HTTP requests. -/
inductive Reachable : StoreState → Prop where
  | init : Reachable initialState
  | step {st st' : StoreState} : Reachable st → RouteStep st st' →
      Reachable st'

/-- The inclusive-overlap freedom of the active reservations on each actual
wheelchair id (`0` is never assigned as a wheelchair id; a reservation can be
steered onto id `0` through the falsy-`wheelchairId` hole of the PUT guard,
which is why `0` is excluded here). -/
def activeOverlapFree (l : List Reservation) : Prop :=
  ∀ r1 ∈ l, ∀ r2 ∈ l, r1.id ≠ r2.id → r1.status = "active" →
    r2.status = "active" → r1.wheelchairId = r2.wheelchairId →
    r1.wheelchairId ≠ 0 →
    ¬(r1.startDate ≤ r2.endDate ∧ r1.endDate ≥ r2.startDate)

/-- The inductive invariant maintained by every route. -/
structure Inv (st : StoreState) : Prop where
  resIdLt : ∀ r ∈ st.reservationsData, r.id < st.reservationCurrentId
  resNodup : (st.reservationsData.map (·.id)).Nodup
  chairIdNe : ∀ w ∈ st.wheelchairsData, w.id ≠ 0
  chairCurNe : st.wheelchairCurrentId ≠ 0
  datesOk : ∀ r ∈ st.reservationsData, r.startDate < r.endDate
  noDouble : activeOverlapFree st.reservationsData

/-! ## Concrete example states

Small concrete stores and requests used to evaluate the definitions on
explicit inputs (scenario checks and witnesses). -/

/-- A sample client body. -/
def witClientInsert : InsertClient :=
  { firstName := "Ana", lastName := "Garcia", dni := "12345678",
    address := "Calle 1", phone := "600000001", email := "ana@example.com",
    registerDate := "2020-01-01", city := "Madrid", country := "ES" }

/-- `initialState` after `POST /clients` created client 1. -/
def witState1 : StoreState := (postClient initialState witClientInsert).2

/-- Reservation body: client 1, wheelchair 1, 2024-06-01 to 2024-06-05. -/
def witInsertA : InsertReservation :=
  { clientId := 1, wheelchairId := 1,
    startDate := mkDate 2024 6 1, endDate := mkDate 2024 6 5 }

/-- Reservation body: client 1, wheelchair 1, 2024-06-10 to 2024-06-15. -/
def witInsertB : InsertReservation :=
  { clientId := 1, wheelchairId := 1,
    startDate := mkDate 2024 6 10, endDate := mkDate 2024 6 15 }

/-- `witState1` after `POST /reservations` accepted `witInsertA`. -/
def witState2 : StoreState := (postReservation witState1 witInsertA).2

/-- `witState2` after `POST /reservations` accepted `witInsertB`. -/
def witState3 : StoreState := (postReservation witState2 witInsertB).2

/-- Seed wheelchair 1 as stored in `witState1` (no rentals yet). -/
def witChair1v0 : Wheelchair :=
  { id := 1, model := "XR-500", brand := "MobilityPlus", year := 2022,
    motor := "350W", rentalCount := 0, wheelSize := "12\"",
    lastService := some (mkDate 2023 1 15) }

/-- Seed wheelchair 1 as stored in `witState3` (two rentals). -/
def witChair1v2 : Wheelchair := { witChair1v0 with rentalCount := 2 }

/-- The stored reservation created from `witInsertA`. -/
def witResA : Reservation :=
  { id := 1, clientId := 1, wheelchairId := 1,
    startDate := mkDate 2024 6 1, endDate := mkDate 2024 6 5,
    status := "active", notes := none }

/-- The stored reservation created from `witInsertB`. -/
def witResB : Reservation :=
  { id := 2, clientId := 1, wheelchairId := 1,
    startDate := mkDate 2024 6 10, endDate := mkDate 2024 6 15,
    status := "active", notes := none }

/-- A PUT body moving reservation 1's start to 2024-06-02. -/
def witPatchC5 : ResPatch := { startDate := some (mkDate 2024 6 2) }

/-- `witResA` after `witPatchC5` was applied. -/
def witResAshift : Reservation := { witResA with startDate := mkDate 2024 6 2 }

/-- A generic wheelchair literal for hand-built stores. -/
def exChair (id : Nat) : Wheelchair :=
  { id := id, model := "M", brand := "B", year := 2022, motor := "300W",
    rentalCount := 0, wheelSize := "12\"", lastService := none }

/-- A generic stored client for hand-built stores. -/
def exClient : Client :=
  { id := 1, firstName := "Ana", lastName := "Garcia", dni := "12345678",
    address := "Calle 1", phone := "600000001", email := "ana@example.com",
    registerDate := "2020-01-01", city := "Madrid", country := "ES" }

/-- "Now" for the stats scenario. -/
def statsExampleToday : JSDate := mkDate 2024 6 2

/-- The single active unexpired reservation of the stats scenario. -/
def statsExampleRes : Reservation :=
  { id := 1, clientId := 1, wheelchairId := 1,
    startDate := mkDate 2024 6 1, endDate := mkDate 2024 6 5,
    status := "active", notes := none }

/-- Stats scenario store: 3 wheelchairs, 1 client, 1 active unexpired
reservation on wheelchair 1. -/
def statsExampleState : StoreState :=
  { wheelchairsData := [exChair 1, exChair 2, exChair 3]
    clientsData := [exClient]
    reservationsData := [statsExampleRes]
    wheelchairCurrentId := 4, clientCurrentId := 2, reservationCurrentId := 2 }

/-- A reservation body whose wheelchair id (99) resolves to no stored
wheelchair of `initialState`. -/
def c7Insert : InsertReservation :=
  { clientId := 1, wheelchairId := 99,
    startDate := mkDate 2024 6 1, endDate := mkDate 2024 6 5 }

/-- Store with a single client whose registration date is "2020-01-01". -/
def c9State : StoreState :=
  { wheelchairsData := [], clientsData := [exClient], reservationsData := []
    wheelchairCurrentId := 1, clientCurrentId := 2, reservationCurrentId := 1 }

/-- A client patch that carries only a new `registerDate`. -/
def c9Patch : ClientPatch := { registerDate := some "2021-05-05" }

/-- `exClient` with the patched registration date. -/
def c9ClientAfter : Client := { exClient with registerDate := "2021-05-05" }

/-- "Now" for the expiry-divergence scenario (past the reservation's end). -/
def c10Today : JSDate := mkDate 2024 6 20

/-- Query range start of the expiry-divergence scenario. -/
def c10Start : JSDate := mkDate 2024 6 1

/-- Query range end of the expiry-divergence scenario. -/
def c10End : JSDate := mkDate 2024 6 5

/-- The expired-but-still-`active` reservation of the divergence scenario. -/
def c10Res : Reservation :=
  { id := 1, clientId := 1, wheelchairId := 1,
    startDate := c10Start, endDate := c10End, status := "active",
    notes := none }

/-- Store with one wheelchair and one `active` reservation whose end date is
already in the past relative to `c10Today`. -/
def c10State : StoreState :=
  { wheelchairsData := [exChair 1]
    clientsData := [exClient]
    reservationsData := [c10Res]
    wheelchairCurrentId := 2, clientCurrentId := 2, reservationCurrentId := 2 }

/-- A reservation body on wheelchair 1 sharing only the boundary day
2024-06-05 with `witResA`. -/
def c4BoundaryInsert : InsertReservation :=
  { clientId := 1, wheelchairId := 1,
    startDate := mkDate 2024 6 5, endDate := mkDate 2024 6 8 }

/-- A reservation body with an empty date range (start = end). -/
def c4EmptyRangeInsert : InsertReservation :=
  { clientId := 1, wheelchairId := 1,
    startDate := mkDate 2024 6 1, endDate := mkDate 2024 6 1 }

/-! ## Lemmas about the map model -/

theorem mem_mapSet_self (key : α → Nat) (l : List α) (v : α) :
    v ∈ mapSet key l v := by
  induction l with
  | nil => simp [mapSet]
  | cons x t ih =>
    by_cases hkey : key x = key v
    · rw [mapSet, if_pos (by simpa using hkey)]
      exact List.mem_cons_self _ _
    · rw [mapSet, if_neg (by simpa using hkey)]
      exact List.mem_cons_of_mem _ ih

theorem mem_of_mem_mapSet {key : α → Nat} {l : List α} {v x : α}
    (h : x ∈ mapSet key l v) : x = v ∨ x ∈ l := by
  induction l with
  | nil => simpa [mapSet] using h
  | cons y t ih =>
    by_cases hkey : key y = key v
    · rw [mapSet, if_pos (by simpa using hkey)] at h
      rcases List.mem_cons.1 h with h | h
      · exact .inl h
      · exact .inr (List.mem_cons_of_mem _ h)
    · rw [mapSet, if_neg (by simpa using hkey)] at h
      rcases List.mem_cons.1 h with h | h
      · exact .inr (h ▸ List.mem_cons_self _ _)
      · rcases ih h with h | h
        · exact .inl h
        · exact .inr (List.mem_cons_of_mem _ h)

theorem mem_mapSet_nodup {key : α → Nat} {l : List α} {v x : α}
    (hnd : (l.map key).Nodup) (h : x ∈ mapSet key l v) :
    x = v ∨ (x ∈ l ∧ key x ≠ key v) := by
  induction l with
  | nil => simpa [mapSet] using h
  | cons y t ih =>
    rw [List.map_cons, List.nodup_cons] at hnd
    by_cases hkey : key y = key v
    · rw [mapSet, if_pos (by simpa using hkey)] at h
      rcases List.mem_cons.1 h with h | h
      · exact .inl h
      · refine .inr ⟨List.mem_cons_of_mem _ h, fun hxk => ?_⟩
        exact hnd.1 (hkey ▸ hxk ▸ List.mem_map_of_mem key h)
    · rw [mapSet, if_neg (by simpa using hkey)] at h
      rcases List.mem_cons.1 h with h | h
      · exact .inr ⟨h ▸ List.mem_cons_self _ _, h ▸ hkey⟩
      · rcases ih hnd.2 h with h1 | ⟨h1, h2⟩
        · exact .inl h1
        · exact .inr ⟨List.mem_cons_of_mem _ h1, h2⟩

theorem map_key_mapSet_of_mem {key : α → Nat} {l : List α} {v : α}
    (h : ∃ y ∈ l, key y = key v) :
    (mapSet key l v).map key = l.map key := by
  induction l with
  | nil => rcases h with ⟨y, hy, _⟩; cases hy
  | cons x t ih =>
    by_cases hkey : key x = key v
    · rw [mapSet, if_pos (by simpa using hkey)]
      simp [hkey]
    · rw [mapSet, if_neg (by simpa using hkey)]
      rcases h with ⟨y, hy, hyk⟩
      rcases List.mem_cons.1 hy with rfl | hy
      · exact absurd hyk hkey
      · simp [ih ⟨y, hy, hyk⟩]

theorem map_key_mapSet_of_not_mem {key : α → Nat} {l : List α} {v : α}
    (h : ∀ y ∈ l, key y ≠ key v) :
    (mapSet key l v).map key = l.map key ++ [key v] := by
  induction l with
  | nil => simp [mapSet]
  | cons x t ih =>
    rw [mapSet, if_neg (by simpa using h x (List.mem_cons_self _ _))]
    simp [ih (fun y hy => h y (List.mem_cons_of_mem _ hy))]

theorem mapGet_eq_some {key : α → Nat} {l : List α} {k : Nat} {x : α}
    (h : mapGet key l k = some x) : x ∈ l ∧ key x = k := by
  unfold mapGet at h
  exact ⟨List.mem_of_find?_eq_some h, by simpa using List.find?_some h⟩

theorem mapGet_mapSet {key : α → Nat} (l : List α) (v : α) (k : Nat) :
    mapGet key (mapSet key l v) k =
      if key v = k then some v else mapGet key l k := by
  induction l with
  | nil =>
    by_cases h : key v = k
    · simp [mapSet, mapGet, List.find?,
        show (key v == k) = true by simpa using h, h]
    · simp [mapSet, mapGet, List.find?,
        show (key v == k) = false by simpa using h, h]
  | cons x t ih =>
    by_cases hxv : key x = key v
    · rw [mapSet, if_pos (by simpa using hxv)]
      by_cases hvk : key v = k
      · simp [mapGet, List.find?, hvk]
      · have hxk : ¬ key x = k := fun h => hvk (hxv ▸ h)
        simp [mapGet, List.find?, hvk, hxk,
          show (key v == k) = false by simpa using hvk,
          show (key x == k) = false by simpa using hxk]
    · rw [mapSet, if_neg (by simpa using hxv)]
      by_cases hxk : key x = k
      · have hvk : ¬ key v = k := fun h => hxv (hxk.trans h.symm)
        simp [mapGet, List.find?, hvk, hxk]
      · have : mapGet key (x :: t) k = mapGet key t k := by
          simp [mapGet, List.find?, show (key x == k) = false by simpa using hxk]
        rw [this]
        have hstep : mapGet key (x :: mapSet key t v) k =
            mapGet key (mapSet key t v) k := by
          simp [mapGet, List.find?, show (key x == k) = false by simpa using hxk]
        rw [hstep, ih]

theorem mapDel_sublist (key : α → Nat) (l : List α) (k : Nat) :
    (mapDel key l k).2.Sublist l := by
  induction l with
  | nil => simp [mapDel]
  | cons x t ih =>
    rw [mapDel]
    split
    · exact List.sublist_cons_self x t
    · exact List.Sublist.cons₂ x ih

/-! ## The inductive store invariant -/

theorem inv_initialState : Inv initialState := by
  have hres : initialState.reservationsData = [] := by decide
  refine ⟨?_, ?_, by decide, by decide, ?_, ?_⟩
  · rw [hres]; intro r hr; cases hr
  · rw [hres]; simp
  · rw [hres]; intro r hr; cases hr
  · unfold activeOverlapFree; rw [hres]; intro r1 h1; cases h1

/-! ## Invariant preservation -/

/-- Replacing a stored reservation by one with the same id, a valid date
range, and no active overlap with any other stored active reservation (when
itself active on a nonzero wheelchair), preserves the invariant. -/
theorem inv_replace {st : StoreState} (h : Inv st) {ex m : Reservation}
    (hex : ex ∈ st.reservationsData) (hid : m.id = ex.id)
    (hdate : m.startDate < m.endDate)
    (hov : ∀ r ∈ st.reservationsData, r.id ≠ m.id → m.status = "active" →
      r.status = "active" → r.wheelchairId = m.wheelchairId →
      m.wheelchairId ≠ 0 →
      ¬(m.startDate ≤ r.endDate ∧ m.endDate ≥ r.startDate)) :
    Inv { st with
      reservationsData := mapSet (·.id) st.reservationsData m } := by
  have hkey : ∃ y ∈ st.reservationsData, y.id = m.id := ⟨ex, hex, hid.symm⟩
  refine ⟨?_, ?_, h.chairIdNe, h.chairCurNe, ?_, ?_⟩
  · intro r hr
    rcases mem_of_mem_mapSet hr with rfl | hr
    · exact hid ▸ h.resIdLt ex hex
    · exact h.resIdLt r hr
  · show ((mapSet (·.id) st.reservationsData m).map (·.id)).Nodup
    rw [map_key_mapSet_of_mem hkey]
    exact h.resNodup
  · intro r hr
    rcases mem_of_mem_mapSet hr with rfl | hr
    · exact hdate
    · exact h.datesOk r hr
  · intro r1 h1 r2 h2 hne ha1 ha2 hchair hch0
    rcases mem_mapSet_nodup h.resNodup h1 with rfl | ⟨h1m, h1ne⟩ <;>
      rcases mem_mapSet_nodup h.resNodup h2 with heq2 | ⟨h2m, h2ne⟩
    · exact absurd (heq2 ▸ rfl) hne
    · exact hov r2 h2m h2ne ha1 ha2 hchair.symm hch0
    · subst heq2
      intro hovl
      exact hov r1 h1m h1ne ha2 ha1 hchair (hchair ▸ hch0) ⟨hovl.2, hovl.1⟩
    · exact h.noDouble r1 h1m r2 h2m hne ha1 ha2 hchair hch0

/-- If the POST availability test passes for a wheelchair id, no stored
active reservation on that id inclusively overlaps the query range. -/
theorem not_overlap_of_available {st : StoreState} {wid : Nat}
    {sd ed : JSDate}
    (hav : wheelchairAvailableFor st wid sd ed = true) :
    ∀ r ∈ st.reservationsData, r.status = "active" → r.wheelchairId = wid →
      ¬(sd ≤ r.endDate ∧ ed ≥ r.startDate) := by
  unfold wheelchairAvailableFor checkAvailability at hav
  simp only [List.any_eq_true] at hav
  obtain ⟨c, hc, hcid⟩ := hav
  rw [List.mem_filter] at hc
  have hcid' : c.id = wid := by simpa using hcid
  intro r hr hact hchair ⟨h1, h2⟩
  have hmem : wid ∈ (st.reservationsData.filter
      (fun r =>
        (decide (sd ≤ r.endDate) && decide (r.startDate ≤ ed)) &&
        r.status == "active")).map (·.wheelchairId) := by
    refine List.mem_map.2 ⟨r, List.mem_filter.2 ⟨hr, ?_⟩, hchair⟩
    simp [h1, h2, hact]
  have h2' := hc.2
  rw [Bool.not_eq_true', List.contains_eq_any_beq, List.any_eq_false] at h2'
  exact h2' wid hmem (by simp [hcid'])

/-- `incrementWheelchairRentalCount` preserves the invariant: it only
rewrites a stored wheelchair in place, keeping its id. -/
theorem inv_increment {st : StoreState} (h : Inv st) (id : Nat) :
    Inv (incrementWheelchairRentalCount st id).2 := by
  unfold incrementWheelchairRentalCount
  cases hget : getWheelchair st id with
  | none => exact h
  | some w =>
    have hw := mapGet_eq_some hget
    refine ⟨h.resIdLt, h.resNodup, ?_, h.chairCurNe, h.datesOk, h.noDouble⟩
    intro x hx
    rcases mem_of_mem_mapSet hx with rfl | hx
    · exact h.chairIdNe w hw.1
    · exact h.chairIdNe x hx

/-- `storage.createReservation` preserves the invariant whenever the POST
availability test for the reservation's wheelchair and range passed and the
range is valid. -/
theorem inv_createReservation {st : StoreState} (h : Inv st)
    {body : InsertReservation}
    (hdate : body.startDate < body.endDate)
    (hav : wheelchairAvailableFor st body.wheelchairId body.startDate
      body.endDate = true) :
    Inv (createReservation st body).2 := by
  have hfresh : ∀ y ∈ st.reservationsData,
      y.id ≠ st.reservationCurrentId :=
    fun y hy => Nat.ne_of_lt (h.resIdLt y hy)
  have hnotov := not_overlap_of_available hav
  -- the state after the insert, before the counter increment
  have hinv1 : Inv
      { st with
        reservationsData := mapSet (·.id) st.reservationsData
          { id := st.reservationCurrentId, clientId := body.clientId,
            wheelchairId := body.wheelchairId, startDate := body.startDate,
            endDate := body.endDate, status := "active", notes := body.notes }
        reservationCurrentId := st.reservationCurrentId + 1 } := by
    refine ⟨?_, ?_, h.chairIdNe, h.chairCurNe, ?_, ?_⟩
    · intro r hr
      rcases mem_of_mem_mapSet hr with rfl | hr
      · exact Nat.lt_succ_self _
      · exact Nat.lt_succ_of_lt (h.resIdLt r hr)
    · show ((mapSet (·.id) st.reservationsData _).map (·.id)).Nodup
      rw [map_key_mapSet_of_not_mem (fun y hy => hfresh y hy)]
      rw [List.nodup_append]
      refine ⟨h.resNodup, List.nodup_singleton _, ?_⟩
      intro a ha hb
      rw [List.mem_singleton] at hb
      obtain ⟨y, hy, hyk⟩ := List.mem_map.1 ha
      exact hfresh y hy (hyk.trans hb)
    · intro r hr
      rcases mem_of_mem_mapSet hr with rfl | hr
      · exact hdate
      · exact h.datesOk r hr
    · intro r1 h1 r2 h2 hne ha1 ha2 hchair hch0
      rcases mem_mapSet_nodup h.resNodup h1 with rfl | ⟨h1m, _⟩ <;>
        rcases mem_mapSet_nodup h.resNodup h2 with heq2 | ⟨h2m, _⟩
      · exact absurd (heq2 ▸ rfl) hne
      · exact hnotov r2 h2m ha2 hchair.symm
      · subst heq2
        intro hovl
        exact hnotov r1 h1m ha1 hchair ⟨hovl.2, hovl.1⟩
      · exact h.noDouble r1 h1m r2 h2m hne ha1 ha2 hchair hch0
  -- the counter increment only rewrites a wheelchair in place
  exact inv_increment hinv1 body.wheelchairId

/-- The invariant does not mention clients, so any change to the client map
or counter preserves it. -/
theorem inv_clients {st : StoreState} (h : Inv st) (cd : List Client)
    (cc : Nat) :
    Inv { st with clientsData := cd, clientCurrentId := cc } :=
  ⟨h.resIdLt, h.resNodup, h.chairIdNe, h.chairCurNe, h.datesOk, h.noDouble⟩

/-- Shrinking the reservation map to a sublist preserves the invariant. -/
theorem inv_res_sublist {st : StoreState} (h : Inv st) {l' : List Reservation}
    (hsub : l'.Sublist st.reservationsData) :
    Inv { st with reservationsData := l' } := by
  refine ⟨?_, ?_, h.chairIdNe, h.chairCurNe, ?_, ?_⟩
  · exact fun r hr => h.resIdLt r (hsub.subset hr)
  · exact h.resNodup.sublist (hsub.map (·.id))
  · exact fun r hr => h.datesOk r (hsub.subset hr)
  · exact fun r1 h1 r2 h2 => h.noDouble r1 (hsub.subset h1) r2 (hsub.subset h2)

theorem inv_postWheelchair {st : StoreState} (h : Inv st)
    (b : InsertWheelchair) : Inv (postWheelchair st b).2 := by
  refine ⟨h.resIdLt, h.resNodup, ?_, Nat.succ_ne_zero _, h.datesOk, h.noDouble⟩
  intro w hw
  rcases mem_of_mem_mapSet hw with rfl | hw
  · exact h.chairCurNe
  · exact h.chairIdNe w hw

theorem inv_putWheelchair {st : StoreState} (h : Inv st) (id : Nat)
    (b : WheelchairPatch) : Inv (putWheelchair st id b).2 := by
  unfold putWheelchair updateWheelchair
  cases hget : mapGet (·.id) st.wheelchairsData id with
  | none => exact h
  | some ex =>
    refine ⟨h.resIdLt, h.resNodup, ?_, h.chairCurNe, h.datesOk, h.noDouble⟩
    intro w hw
    rcases mem_of_mem_mapSet hw with rfl | hw
    · exact (mapGet_eq_some hget).2 ▸ h.chairIdNe ex (mapGet_eq_some hget).1
    · exact h.chairIdNe w hw

theorem inv_deleteWheelchairRoute {st : StoreState} (h : Inv st) (id : Nat) :
    Inv (deleteWheelchairRoute st id).2 := by
  rcases hdel : mapDel (·.id) st.wheelchairsData id with ⟨b, l'⟩
  have hsub : l'.Sublist st.wheelchairsData := by
    have := mapDel_sublist (α := Wheelchair) (·.id) st.wheelchairsData id
    rwa [hdel] at this
  have hinv : Inv { st with wheelchairsData := l' } :=
    ⟨h.resIdLt, h.resNodup, fun w hw => h.chairIdNe w (hsub.subset hw),
      h.chairCurNe, h.datesOk, h.noDouble⟩
  simp only [deleteWheelchairRoute, deleteWheelchair, hdel]
  cases b <;> exact hinv

theorem inv_postClient {st : StoreState} (h : Inv st) (b : InsertClient) :
    Inv (postClient st b).2 :=
  inv_clients h _ _

theorem inv_putClient {st : StoreState} (h : Inv st) (id : Nat)
    (b : ClientPatch) : Inv (putClient st id b).2 := by
  unfold putClient updateClient
  cases mapGet (·.id) st.clientsData id with
  | none => exact h
  | some ex => exact inv_clients h _ _

theorem inv_deleteClientRoute {st : StoreState} (h : Inv st) (id : Nat) :
    Inv (deleteClientRoute st id).2 := by
  rcases hdel : mapDel (·.id) st.clientsData id with ⟨b, l'⟩
  have hinv : Inv { st with clientsData := l' } :=
    ⟨h.resIdLt, h.resNodup, h.chairIdNe, h.chairCurNe, h.datesOk, h.noDouble⟩
  simp only [deleteClientRoute, deleteClient, hdel]
  cases b <;> exact hinv

theorem inv_deleteReservationRoute {st : StoreState} (h : Inv st) (id : Nat) :
    Inv (deleteReservationRoute st id).2 := by
  rcases hdel : mapDel (·.id) st.reservationsData id with ⟨b, l'⟩
  have hsub : l'.Sublist st.reservationsData := by
    have := mapDel_sublist (α := Reservation) (·.id) st.reservationsData id
    rwa [hdel] at this
  have hinv := inv_res_sublist h hsub
  simp only [deleteReservationRoute, deleteReservation, hdel]
  cases b <;> exact hinv

theorem updateReservation_none {st : StoreState} {id : Nat} {p : ResPatch}
    {st' : StoreState} (h : updateReservation st id p = (none, st')) :
    st' = st := by
  unfold updateReservation at h
  split at h
  · injection h with h1 h2
    exact h2.symm
  · injection h with h1 h2
    cases h1

theorem updateReservation_some {st : StoreState} {id : Nat} {p : ResPatch}
    {r : Reservation} {st' : StoreState}
    (h : updateReservation st id p = (some r, st')) :
    ∃ ex, mapGet (·.id) st.reservationsData id = some ex ∧
      r = mergeReservation ex p ∧
      st' = { st with
        reservationsData := mapSet (·.id) st.reservationsData
          (mergeReservation ex p) } := by
  unfold updateReservation at h
  split at h
  · injection h with h1 h2
    cases h1
  · next ex hget =>
    injection h with h1 h2
    injection h1 with h1
    exact ⟨ex, hget, h1.symm, h2.symm⟩

theorem inv_postReservationRoute {st : StoreState} (h : Inv st)
    (b : InsertReservation) : Inv (postReservation st b).2 := by
  unfold postReservation
  cases getClient st b.clientId with
  | none => exact h
  | some c =>
    cases getWheelchair st b.wheelchairId with
    | none => exact h
    | some w =>
      by_cases hdc : b.startDate ≥ b.endDate
      · rw [if_pos hdc]; exact h
      · rw [if_neg hdc]
        by_cases hav : wheelchairAvailableFor st b.wheelchairId b.startDate
            b.endDate = true
        · rw [if_pos hav]
          exact inv_createReservation h (lt_of_not_ge hdc) hav
        · rw [if_neg hav]; exact h

theorem inv_putReservation {st : StoreState} (h : Inv st) (id : Nat)
    (raw : ResPatch) : Inv (putReservation st id raw).2 := by
  have hstatus : (stripResPatch raw).status = none := rfl
  simp only [putReservation]
  split
  · -- the guard fired: the body carries a date or a truthy wheelchair id
    split
    · exact h
    · next ex hget =>
      unfold getReservation at hget
      have hexmem := (mapGet_eq_some hget).1
      have hexid := (mapGet_eq_some hget).2
      split
      · exact h
      · next hdc =>
        split
        · exact h
        · next hov =>
          split
          · next st' hupd =>
            exact (updateReservation_none hupd) ▸ h
          · next r st' hupd =>
            obtain ⟨ex', hget', hr, hst'⟩ := updateReservation_some hupd
            rw [hget] at hget'
            injection hget' with hex'
            subst hex'
            subst hst'
            -- conflict-freedom of the merged reservation
            have hempty : ∀ x ∈ st.reservationsData,
                ¬((x.id != id &&
                    x.wheelchairId ==
                      jsOrNat (stripResPatch raw).wheelchairId
                        ex.wheelchairId &&
                    x.status == "active" &&
                    decide (x.startDate ≤
                      (stripResPatch raw).endDate.getD ex.endDate) &&
                    decide ((stripResPatch raw).startDate.getD ex.startDate ≤
                      x.endDate)) = true) := by
              have hnil : updateOverlaps st id
                  (jsOrNat (stripResPatch raw).wheelchairId ex.wheelchairId)
                  ((stripResPatch raw).startDate.getD ex.startDate)
                  ((stripResPatch raw).endDate.getD ex.endDate) = [] := by
                have := Nat.le_zero.1 (Nat.not_lt.1 hov)
                exact List.length_eq_zero.1 this
              intro x hx
              exact List.filter_eq_nil_iff.1 hnil x hx
            refine inv_replace h hexmem rfl ?_ ?_
            · show (stripResPatch raw).startDate.getD ex.startDate <
                (stripResPatch raw).endDate.getD ex.endDate
              exact lt_of_not_ge hdc
            · intro x hx hxne hmact hxact hchair hch0
              -- the effective wheelchair id of the check equals the merged one
              have hW : jsOrNat (stripResPatch raw).wheelchairId
                  ex.wheelchairId =
                  (mergeReservation ex (stripResPatch raw)).wheelchairId := by
                cases hbw : (stripResPatch raw).wheelchairId with
                | none => simp [jsOrNat, mergeReservation, hbw]
                | some w =>
                  have hwne : w ≠ 0 := by
                    simpa [mergeReservation, hbw] using hch0
                  simp [jsOrNat, mergeReservation, hbw, hwne]
              intro hovl
              apply hempty x hx
              have h1 : (x.id != id) = true := by
                simp only [bne_iff_ne, ne_eq]
                exact fun hh => hxne (by rw [hh]; exact hexid.symm)
              have h2 : (x.wheelchairId =
                  jsOrNat (stripResPatch raw).wheelchairId ex.wheelchairId) :=
                hchair.trans hW.symm
              have h3 : (x.startDate ≤
                  (stripResPatch raw).endDate.getD ex.endDate) := hovl.2
              have h4 : ((stripResPatch raw).startDate.getD ex.startDate ≤
                  x.endDate) := hovl.1
              simp [h1, h2, h3, h4, hxact]
  · -- the guard did not fire: the body has no date and no truthy wheelchair
    next hguard =>
    have hA : ((stripResPatch raw).startDate = none ∧
        (stripResPatch raw).endDate = none) ∧
        natTruthy (stripResPatch raw).wheelchairId = false := by
      rw [hstatus] at hguard
      simpa using hguard
    obtain ⟨⟨hsd, hed⟩, hwc'⟩ := hA
    have hwc : (stripResPatch raw).wheelchairId.getD 0 = 0 := by
      unfold natTruthy at hwc'
      simpa using hwc'
    split
    · next st' hupd =>
      exact (updateReservation_none hupd) ▸ h
    · next r st' hupd =>
      obtain ⟨ex, hget, hr, hst'⟩ := updateReservation_some hupd
      have hexmem := (mapGet_eq_some hget).1
      subst hst'
      have hms : (mergeReservation ex (stripResPatch raw)).startDate =
          ex.startDate := by simp [mergeReservation, hsd]
      have hme : (mergeReservation ex (stripResPatch raw)).endDate =
          ex.endDate := by simp [mergeReservation, hed]
      have hmstat : (mergeReservation ex (stripResPatch raw)).status =
          ex.status := by simp [mergeReservation, hstatus]
      refine inv_replace h hexmem rfl ?_ ?_
      · rw [hms, hme]
        exact h.datesOk ex hexmem
      · intro x hx hxne hmact hxact hchair hch0
        cases hbw : (stripResPatch raw).wheelchairId with
        | some w =>
          have hw0 : w = 0 := by rw [hbw] at hwc; simpa using hwc
          have : (mergeReservation ex (stripResPatch raw)).wheelchairId = 0 := by
            simp [mergeReservation, hbw, hw0]
          exact absurd this hch0
        | none =>
          have hmw : (mergeReservation ex (stripResPatch raw)).wheelchairId =
              ex.wheelchairId := by simp [mergeReservation, hbw]
          rw [hms, hme]
          rw [hmstat] at hmact
          rw [hmw] at hchair hch0
          exact h.noDouble ex hexmem x hx (fun hh => hxne hh.symm) hmact hxact
            hchair.symm hch0

/-- Every HTTP request preserves the invariant. -/
theorem inv_routeStep {st st' : StoreState} (h : Inv st)
    (hs : RouteStep st st') : Inv st' := by
  cases hs with
  | postWheelchairStep b => exact inv_postWheelchair h b
  | putWheelchairStep id b => exact inv_putWheelchair h id b
  | deleteWheelchairStep id => exact inv_deleteWheelchairRoute h id
  | postClientStep b => exact inv_postClient h b
  | putClientStep id b => exact inv_putClient h id b
  | deleteClientStep id => exact inv_deleteClientRoute h id
  | postReservationStep b => exact inv_postReservationRoute h b
  | putReservationStep id b => exact inv_putReservation h id b
  | deleteReservationStep id => exact inv_deleteReservationRoute h id

/-- The invariant holds in every reachable store state. -/
theorem reachable_inv {st : StoreState} (h : Reachable st) : Inv st := by
  induction h with
  | init => exact inv_initialState
  | step _ hs ih => exact inv_routeStep ih hs

/-! ## Frame lemmas for the counter operations -/

theorem increment_wheelchairs_some {st : StoreState} {id : Nat}
    {w : Wheelchair} (h : getWheelchair st id = some w) :
    (incrementWheelchairRentalCount st id).2 =
      { st with wheelchairsData := (mapSet (·.id) st.wheelchairsData
        { w with rentalCount := w.rentalCount + 1 }) } := by
  unfold incrementWheelchairRentalCount
  rw [h]

theorem increment_wheelchairs_none {st : StoreState} {id : Nat}
    (h : getWheelchair st id = none) :
    (incrementWheelchairRentalCount st id).2 = st := by
  unfold incrementWheelchairRentalCount
  rw [h]

theorem increment_frame (st : StoreState) (id : Nat) :
    (incrementWheelchairRentalCount st id).2.reservationsData =
      st.reservationsData ∧
    (incrementWheelchairRentalCount st id).2.reservationCurrentId =
      st.reservationCurrentId ∧
    (incrementWheelchairRentalCount st id).2.clientsData = st.clientsData := by
  unfold incrementWheelchairRentalCount
  cases getWheelchair st id <;> exact ⟨rfl, rfl, rfl⟩

theorem updateReservation_wheelchairs (st : StoreState) (id : Nat)
    (p : ResPatch) :
    (updateReservation st id p).2.wheelchairsData = st.wheelchairsData := by
  unfold updateReservation
  cases mapGet (·.id) st.reservationsData id <;> rfl

theorem putReservation_wheelchairs (st : StoreState) (id : Nat)
    (raw : ResPatch) :
    (putReservation st id raw).2.wheelchairsData = st.wheelchairsData := by
  have hupdfr : ∀ (o : Option Reservation × StoreState),
      updateReservation st id (stripResPatch raw) = o →
      o.2.wheelchairsData = st.wheelchairsData := by
    intro o ho
    have := updateReservation_wheelchairs st id (stripResPatch raw)
    rw [ho] at this
    exact this
  simp only [putReservation]
  split
  · split
    · rfl
    · split
      · rfl
      · split
        · rfl
        · split
          · next st' hupd => exact hupdfr (none, st') hupd
          · next r st' hupd => exact hupdfr (some r, st') hupd
  · split
    · next st' hupd => exact hupdfr (none, st') hupd
    · next r st' hupd => exact hupdfr (some r, st') hupd

/-! ## Claim theorems -/

/-- C1.  No double-booking invariant: in every store state reachable from the
initial state through the HTTP layer (in particular through any sequence of
accepted create-reservation and update-reservation requests, since rejected
requests leave the state unchanged and the step relation covers every
request), for every wheelchair `w` in the store, any two distinct stored
reservations with status "active" referencing `w.id` have non-overlapping
date ranges under the inclusive rule. -/
theorem no_double_booking (st : StoreState) (hst : Reachable st)
    (w : Wheelchair) (hw : w ∈ st.wheelchairsData)
    (r1 r2 : Reservation) (h1 : r1 ∈ st.reservationsData)
    (h2 : r2 ∈ st.reservationsData) (hne : r1.id ≠ r2.id)
    (ha1 : r1.status = "active") (ha2 : r2.status = "active")
    (hu1 : r1.wheelchairId = w.id) (hu2 : r2.wheelchairId = w.id) :
    ¬(r1.startDate ≤ r2.endDate ∧ r1.endDate ≥ r2.startDate) := by
  have hinv := reachable_inv hst
  refine hinv.noDouble r1 h1 r2 h2 hne ha1 ha2 (hu1.trans hu2.symm) ?_
  rw [hu1]
  exact hinv.chairIdNe w hw

/-- Witness for C1: a concrete three-request run (create a client, then two
accepted reservations on wheelchair 1) reaching a state with two active
reservations on the same wheelchair, whose ranges the theorem shows disjoint. -/
theorem no_double_booking_witness :
    (witChair1v2 ∈ witState3.wheelchairsData ∧
      witResA ∈ witState3.reservationsData ∧
      witResB ∈ witState3.reservationsData ∧
      witResA.wheelchairId = witChair1v2.id ∧
      witResB.wheelchairId = witChair1v2.id) ∧
    ¬(witResA.startDate ≤ witResB.endDate ∧
      witResA.endDate ≥ witResB.startDate) := by
  have hreach : Reachable witState3 :=
    Reachable.step
      (Reachable.step
        (Reachable.step Reachable.init
          (RouteStep.postClientStep initialState witClientInsert))
        (RouteStep.postReservationStep witState1 witInsertA))
      (RouteStep.postReservationStep witState2 witInsertB)
  refine ⟨⟨by decide, by decide, by decide, by decide, by decide⟩, ?_⟩
  exact no_double_booking witState3 hreach witChair1v2 (by decide)
    witResA witResB (by decide) (by decide) (by decide) (by decide) (by decide)
    (by decide) (by decide)

/-- C5.  Start-before-end: (1) every accepted `POST /reservations` stored a
reservation with start strictly before end; (2) every accepted
`PUT /reservations/:id` whose body carries a start or end date — whatever
`status` value the raw body also carries, `"cancelled"` included, since the
zod schema strips it — re-validates and yields a reservation with start
strictly before end; hence (3) in every reachable store state every stored
reservation satisfies `startDate < endDate`. -/
theorem reservation_dates_valid :
    (∀ (st : StoreState) (body : InsertReservation) (r : Reservation)
      (st' : StoreState), postReservation st body = (.ok r, st') →
      r.startDate < r.endDate) ∧
    (∀ (st : StoreState) (id : Nat) (raw : ResPatch) (r : Reservation)
      (st' : StoreState), putReservation st id raw = (.ok r, st') →
      raw.startDate.isSome = true ∨ raw.endDate.isSome = true →
      r.startDate < r.endDate) ∧
    (∀ st : StoreState, Reachable st →
      ∀ r ∈ st.reservationsData, r.startDate < r.endDate) := by
  refine ⟨?_, ?_, ?_⟩
  · intro st body r st' hpost
    unfold postReservation at hpost
    split at hpost
    · injection hpost with hp1 _; cases hp1
    · split at hpost
      · injection hpost with hp1 _; cases hp1
      · split at hpost
        · injection hpost with hp1 _; cases hp1
        · split at hpost
          · next hdc _ =>
            injection hpost with hp1 _
            injection hp1 with hp1
            rw [← hp1]
            exact lt_of_not_ge hdc
          · injection hpost with hp1 _; cases hp1
  · intro st id raw r st' hput hsome
    have hguard : (((stripResPatch raw).startDate.isSome ||
        (stripResPatch raw).endDate.isSome ||
        natTruthy (stripResPatch raw).wheelchairId) &&
        !((stripResPatch raw).status == some "cancelled")) = true := by
      rcases hsome with hs | hs <;> simp [stripResPatch, hs]
    simp only [putReservation] at hput
    rw [if_pos hguard] at hput
    split at hput
    · injection hput with hp1 _; cases hp1
    · next ex hget =>
      split at hput
      · injection hput with hp1 _; cases hp1
      · next hdc =>
        split at hput
        · injection hput with hp1 _; cases hp1
        · split at hput
          · next st'' hupd => injection hput with hp1 _; cases hp1
          · next r'' st'' hupd =>
            injection hput with hp1 hp2
            injection hp1 with hp1
            obtain ⟨ex', hget', hr, _⟩ := updateReservation_some hupd
            unfold getReservation at hget
            rw [hget] at hget'
            injection hget' with hex
            subst hex
            rw [← hp1, hr]
            show (stripResPatch raw).startDate.getD ex.startDate <
              (stripResPatch raw).endDate.getD ex.endDate
            exact lt_of_not_ge hdc
  · intro st hst r hr
    exact (reachable_inv hst).datesOk r hr

/-- Witness for C5: a concrete accepted create, a concrete accepted
date-changing update (whose raw body could also have carried a status), and a
concrete reachable state, each yielding `startDate < endDate`. -/
theorem reservation_dates_valid_witness :
    (postReservation witState1 witInsertA = (.ok witResA, witState2) ∧
      witResA.startDate < witResA.endDate) ∧
    (putReservation witState3 1 witPatchC5 =
        (.ok witResAshift, (putReservation witState3 1 witPatchC5).2) ∧
      witResAshift.startDate < witResAshift.endDate) ∧
    (witResB ∈ witState3.reservationsData ∧
      witResB.startDate < witResB.endDate) := by
  have hreach : Reachable witState3 :=
    Reachable.step
      (Reachable.step
        (Reachable.step Reachable.init
          (RouteStep.postClientStep initialState witClientInsert))
        (RouteStep.postReservationStep witState1 witInsertA))
      (RouteStep.postReservationStep witState2 witInsertB)
  have hpost : postReservation witState1 witInsertA = (.ok witResA, witState2) := by
    refine Prod.ext ?_ rfl
    decide
  have hput : putReservation witState3 1 witPatchC5 =
      (.ok witResAshift, (putReservation witState3 1 witPatchC5).2) := by
    refine Prod.ext ?_ rfl
    decide
  refine ⟨⟨hpost, ?_⟩, ⟨hput, ?_⟩, ⟨by decide, ?_⟩⟩
  · exact reservation_dates_valid.1 witState1 witInsertA witResA witState2 hpost
  · exact reservation_dates_valid.2.1 witState3 1 witPatchC5 witResAshift
      (putReservation witState3 1 witPatchC5).2 hput (.inl (by decide))
  · exact reservation_dates_valid.2.2 witState3 hreach witResB (by decide)

/-- C2.  `checkAvailability` returns exactly the stored wheelchairs not
referenced by any stored reservation that is `active` and inclusively
overlaps the query range (so `completed`/`cancelled` reservations never
exclude their wheelchair, and sharing a boundary day does exclude it), with
`available` true iff that list is non-empty.  The operation is a pure
function of the state: it returns no modified store. -/
theorem checkAvailability_correct (st : StoreState) (s e : JSDate) :
    (checkAvailability st s e).availableWheelchairs =
      st.wheelchairsData.filter (fun w =>
        st.reservationsData.all (fun r =>
          !(r.status == "active" && decide (s ≤ r.endDate) &&
            decide (r.startDate ≤ e) && r.wheelchairId == w.id))) ∧
    ((checkAvailability st s e).available = true ↔
      (checkAvailability st s e).availableWheelchairs ≠ []) := by
  constructor
  · show st.wheelchairsData.filter _ = st.wheelchairsData.filter _
    apply List.filter_congr
    intro w hw
    rw [Bool.eq_iff_iff, Bool.not_eq_true', List.all_eq_true,
      List.contains_eq_any_beq, List.any_eq_false]
    constructor
    · intro hno r hr
      rw [Bool.not_eq_true']
      by_contra hP
      rw [Bool.not_eq_false] at hP
      simp only [Bool.and_eq_true, beq_iff_eq, decide_eq_true_eq] at hP
      obtain ⟨⟨⟨hst, h1⟩, h2⟩, hch⟩ := hP
      apply hno w.id ?_ (by simp)
      exact List.mem_map.2
        ⟨r, List.mem_filter.2 ⟨hr, by simp [hst, h1, h2]⟩, hch⟩
    · intro hall a ha hbeq
      obtain ⟨r, hrf, hrch⟩ := List.mem_map.1 ha
      rw [List.mem_filter] at hrf
      have hP := hall r hrf.1
      rw [Bool.not_eq_true'] at hP
      have hPdata := hrf.2
      simp only [Bool.and_eq_true, beq_iff_eq, decide_eq_true_eq] at hPdata
      have haw : w.id = a := by simpa using hbeq
      rw [Bool.and_eq_false_iff] at hP
      rcases hP with hP | hP
      · rw [Bool.and_eq_false_iff] at hP
        rcases hP with hP | hP
        · rw [Bool.and_eq_false_iff] at hP
          rcases hP with hP | hP
          · exact absurd hPdata.2 (by simpa using hP)
          · exact absurd hPdata.1.1 (by simpa using hP)
        · exact absurd hPdata.1.2 (by simpa using hP)
      · exact absurd (hrch.trans haw.symm) (by simpa using hP)
  · show (decide ((st.wheelchairsData.filter _).length > 0)) = true ↔ _
    rw [decide_eq_true_eq]
    exact ⟨fun h => List.ne_nil_of_length_pos h,
      fun h => List.length_pos_of_ne_nil h⟩

/-- C3.  Availability/booking agreement: for a wheelchair id `u` present in
the store and an exclusion id matching no stored reservation, the
reservation-update path's overlap filter is empty for `[s, e]` iff `u`
appears among the ids of `checkAvailability s e`'s available wheelchairs. -/
theorem availability_agreement (st : StoreState) (u : Nat) (s e : JSDate)
    (hu : u ∈ st.wheelchairsData.map (·.id)) (excl : Nat)
    (hexcl : ∀ r ∈ st.reservationsData, r.id ≠ excl) :
    updateOverlaps st excl u s e = [] ↔
      u ∈ (checkAvailability st s e).availableWheelchairs.map (·.id) := by
  obtain ⟨w, hwmem, hwid⟩ := List.mem_map.1 hu
  constructor
  · intro hnil
    refine List.mem_map.2 ⟨w, ?_, hwid⟩
    show w ∈ st.wheelchairsData.filter _
    rw [List.mem_filter]
    refine ⟨hwmem, ?_⟩
    rw [Bool.not_eq_true', List.contains_eq_any_beq, List.any_eq_false]
    intro x hx hbeq
    obtain ⟨r, hrm, hrch⟩ := List.mem_map.1 hx
    rw [List.mem_filter] at hrm
    have hPdata := hrm.2
    simp only [Bool.and_eq_true, beq_iff_eq, decide_eq_true_eq] at hPdata
    have hxw : w.id = x := by simpa using hbeq
    have hpred := List.filter_eq_nil_iff.1 hnil r hrm.1
    apply hpred
    have hbne : (r.id != excl) = true := by simpa using hexcl r hrm.1
    have hch : r.wheelchairId = u := by rw [hrch, ← hxw]; exact hwid
    simp [hbne, hch, hPdata.1.1, hPdata.1.2, hPdata.2]
  · intro hmem
    obtain ⟨w', hw'f, hw'id⟩ := List.mem_map.1 hmem
    have hw'f : w' ∈ st.wheelchairsData.filter _ := hw'f
    rw [List.mem_filter] at hw'f
    unfold updateOverlaps
    rw [List.filter_eq_nil_iff]
    intro r hr hpred
    simp only [Bool.and_eq_true, bne_iff_ne, beq_iff_eq,
      decide_eq_true_eq] at hpred
    obtain ⟨⟨⟨⟨hne, hch⟩, hst⟩, hd1⟩, hd2⟩ := hpred
    have h2' := hw'f.2
    rw [Bool.not_eq_true', List.contains_eq_any_beq, List.any_eq_false] at h2'
    apply h2' r.wheelchairId ?_ (by simp [hw'id, hch])
    exact List.mem_map.2
      ⟨r, List.mem_filter.2 ⟨hr, by simp [hst, hd1, hd2]⟩, rfl⟩

/-- Witness for C3: in the concrete store holding one active reservation on
wheelchair 1 over 2024-06-01..05, the update-path filter over
2024-07-01..05 with an exclusion id matching nothing agrees with
`checkAvailability`. -/
theorem availability_agreement_witness :
    (1 ∈ witState2.wheelchairsData.map (·.id) ∧
      ∀ r ∈ witState2.reservationsData, r.id ≠ 999) ∧
    (updateOverlaps witState2 999 1 (mkDate 2024 7 1) (mkDate 2024 7 5) = [] ↔
      1 ∈ (checkAvailability witState2 (mkDate 2024 7 1)
        (mkDate 2024 7 5)).availableWheelchairs.map (·.id)) := by
  refine ⟨⟨by decide, by decide⟩, ?_⟩
  exact availability_agreement witState2 1 (mkDate 2024 7 1) (mkDate 2024 7 5)
    (by decide) 999 (by decide)

/-- C4.  `POST /reservations` checks its preconditions in order — client
exists, wheelchair exists, start strictly before end, wheelchair available —
the first failing check determining the error; on success it stores the
reservation under the next identifier of the monotone counter (never reused,
hence fresh), with status "active", and bumps the referenced wheelchair's
rental counter by exactly one. -/
theorem postReservation_checks_in_order (st : StoreState)
    (body : InsertReservation) :
    (getClient st body.clientId = none →
      postReservation st body = (.error .clientNotFound, st)) ∧
    ((getClient st body.clientId).isSome = true →
      getWheelchair st body.wheelchairId = none →
      postReservation st body = (.error .wheelchairNotFound, st)) ∧
    ((getClient st body.clientId).isSome = true →
      (getWheelchair st body.wheelchairId).isSome = true →
      body.startDate ≥ body.endDate →
      postReservation st body = (.error .invalidDateRange, st)) ∧
    ((getClient st body.clientId).isSome = true →
      (getWheelchair st body.wheelchairId).isSome = true →
      body.startDate < body.endDate →
      wheelchairAvailableFor st body.wheelchairId body.startDate
        body.endDate = false →
      postReservation st body = (.error .notAvailable, st)) ∧
    (∀ w : Wheelchair, (getClient st body.clientId).isSome = true →
      getWheelchair st body.wheelchairId = some w →
      body.startDate < body.endDate →
      wheelchairAvailableFor st body.wheelchairId body.startDate
        body.endDate = true →
      postReservation st body =
        (.ok (createReservation st body).1, (createReservation st body).2) ∧
      (createReservation st body).1.status = "active" ∧
      (createReservation st body).1.id = st.reservationCurrentId ∧
      (createReservation st body).2.reservationCurrentId =
        st.reservationCurrentId + 1 ∧
      (createReservation st body).1 ∈
        (createReservation st body).2.reservationsData ∧
      getWheelchair (createReservation st body).2 body.wheelchairId =
        some { w with rentalCount := w.rentalCount + 1 }) := by
  refine ⟨?_, ?_, ?_, ?_, ?_⟩
  · intro h
    unfold postReservation
    rw [h]
  · intro h1 h2
    obtain ⟨c, hc⟩ := Option.isSome_iff_exists.1 h1
    unfold postReservation
    rw [hc, h2]
  · intro h1 h2 hge
    obtain ⟨c, hc⟩ := Option.isSome_iff_exists.1 h1
    obtain ⟨w, hwc⟩ := Option.isSome_iff_exists.1 h2
    unfold postReservation
    rw [hc, hwc, if_pos hge]
  · intro h1 h2 hlt hav
    obtain ⟨c, hc⟩ := Option.isSome_iff_exists.1 h1
    obtain ⟨w, hwc⟩ := Option.isSome_iff_exists.1 h2
    unfold postReservation
    rw [hc, hwc, if_neg (not_le.2 hlt), if_neg (by simp [hav])]
  · intro w h1 hwc hlt hav
    obtain ⟨c, hc⟩ := Option.isSome_iff_exists.1 h1
    have hpost : postReservation st body =
        (.ok (createReservation st body).1, (createReservation st body).2) := by
      unfold postReservation
      rw [hc, hwc, if_neg (not_le.2 hlt), if_pos hav]
    have hfr := increment_frame
      { st with
        reservationsData := (mapSet (·.id) st.reservationsData
          { id := st.reservationCurrentId, clientId := body.clientId,
            wheelchairId := body.wheelchairId, startDate := body.startDate,
            endDate := body.endDate, status := "active",
            notes := body.notes })
        reservationCurrentId := st.reservationCurrentId + 1 }
      body.wheelchairId
    refine ⟨hpost, rfl, rfl, hfr.2.1, ?_, ?_⟩
    · show (createReservation st body).1 ∈
        (incrementWheelchairRentalCount _ body.wheelchairId).2.reservationsData
      rw [hfr.1]
      exact mem_mapSet_self _ _ _
    · show getWheelchair
        (incrementWheelchairRentalCount _ body.wheelchairId).2
        body.wheelchairId = _
      have hwc1 : getWheelchair { st with
          reservationsData := (mapSet (·.id) st.reservationsData
            { id := st.reservationCurrentId, clientId := body.clientId,
              wheelchairId := body.wheelchairId, startDate := body.startDate,
              endDate := body.endDate, status := "active",
              notes := body.notes })
          reservationCurrentId := st.reservationCurrentId + 1 }
          body.wheelchairId = some w := hwc
      rw [increment_wheelchairs_some hwc1]
      show mapGet (·.id) (mapSet (·.id) st.wheelchairsData _)
        body.wheelchairId = _
      rw [mapGet_mapSet]
      rw [if_pos (mapGet_eq_some hwc).2]

/-- Witness for C4: concrete runs hitting, in turn, the missing-client error,
the missing-wheelchair error, the invalid-range error, the boundary-overlap
conflict, and the success path with its counter increment. -/
theorem postReservation_checks_in_order_witness :
    postReservation initialState witInsertA =
      (.error .clientNotFound, initialState) ∧
    postReservation witState1 c7Insert =
      (.error .wheelchairNotFound, witState1) ∧
    postReservation witState1 c4EmptyRangeInsert =
      (.error .invalidDateRange, witState1) ∧
    postReservation witState2 c4BoundaryInsert =
      (.error .notAvailable, witState2) ∧
    (postReservation witState1 witInsertA =
        (.ok (createReservation witState1 witInsertA).1,
          (createReservation witState1 witInsertA).2) ∧
      (createReservation witState1 witInsertA).1.status = "active" ∧
      (createReservation witState1 witInsertA).1.id =
        witState1.reservationCurrentId ∧
      (createReservation witState1 witInsertA).2.reservationCurrentId =
        witState1.reservationCurrentId + 1 ∧
      (createReservation witState1 witInsertA).1 ∈
        (createReservation witState1 witInsertA).2.reservationsData ∧
      getWheelchair (createReservation witState1 witInsertA).2
        witInsertA.wheelchairId =
        some { witChair1v0 with rentalCount := witChair1v0.rentalCount + 1 }) := by
  refine ⟨?_, ?_, ?_, ?_, ?_⟩
  · exact (postReservation_checks_in_order initialState witInsertA).1
      (by decide)
  · exact (postReservation_checks_in_order witState1 c7Insert).2.1
      (by decide) (by decide)
  · exact (postReservation_checks_in_order witState1 c4EmptyRangeInsert).2.2.1
      (by decide) (by decide) (by decide)
  · exact (postReservation_checks_in_order witState2 c4BoundaryInsert).2.2.2.1
      (by decide) (by decide) (by decide) (by decide)
  · exact (postReservation_checks_in_order witState1 witInsertA).2.2.2.2
      witChair1v0 (by decide) (by decide) (by decide) (by decide)

/-- C6.  Counter monotonicity: a successful `storage.createReservation`
referencing a stored wheelchair `u` bumps `u`'s `rentalCount` by exactly one
and leaves every other wheelchair unchanged, while
`storage.updateReservation`, the whole `PUT /reservations/:id` route (which
is how cancellations and completions would be issued), and
`storage.deleteReservation` never change the wheelchair map at all. -/
theorem rental_counter_monotone (st : StoreState) (u : Nat) (w : Wheelchair)
    (hw : getWheelchair st u = some w) :
    (∀ body : InsertReservation, body.wheelchairId = u →
      getWheelchair (createReservation st body).2 u =
        some { w with rentalCount := w.rentalCount + 1 }) ∧
    (∀ body : InsertReservation, body.wheelchairId ≠ u →
      getWheelchair (createReservation st body).2 u = some w) ∧
    (∀ (id : Nat) (p : ResPatch),
      (updateReservation st id p).2.wheelchairsData = st.wheelchairsData) ∧
    (∀ (id : Nat) (raw : ResPatch),
      (putReservation st id raw).2.wheelchairsData = st.wheelchairsData) ∧
    (∀ id : Nat,
      (deleteReservation st id).2.wheelchairsData = st.wheelchairsData) := by
  refine ⟨?_, ?_, fun id p => updateReservation_wheelchairs st id p,
    fun id raw => putReservation_wheelchairs st id raw, fun id => rfl⟩
  · intro body hbu
    subst hbu
    have hw1 : getWheelchair { st with
        reservationsData := (mapSet (·.id) st.reservationsData
          { id := st.reservationCurrentId, clientId := body.clientId,
            wheelchairId := body.wheelchairId, startDate := body.startDate,
            endDate := body.endDate, status := "active",
            notes := body.notes })
        reservationCurrentId := st.reservationCurrentId + 1 }
        body.wheelchairId = some w := hw
    show getWheelchair
      (incrementWheelchairRentalCount _ body.wheelchairId).2
      body.wheelchairId = _
    rw [increment_wheelchairs_some hw1]
    show mapGet (·.id) (mapSet (·.id) st.wheelchairsData _)
      body.wheelchairId = _
    rw [mapGet_mapSet, if_pos (mapGet_eq_some hw).2]
  · intro body hbu
    show getWheelchair
      (incrementWheelchairRentalCount _ body.wheelchairId).2 u = _
    cases hw2 : getWheelchair { st with
        reservationsData := (mapSet (·.id) st.reservationsData
          { id := st.reservationCurrentId, clientId := body.clientId,
            wheelchairId := body.wheelchairId, startDate := body.startDate,
            endDate := body.endDate, status := "active",
            notes := body.notes })
        reservationCurrentId := st.reservationCurrentId + 1 }
        body.wheelchairId with
    | none =>
      rw [increment_wheelchairs_none hw2]
      exact hw
    | some w2 =>
      rw [increment_wheelchairs_some hw2]
      show mapGet (·.id) (mapSet (·.id) st.wheelchairsData _) u = _
      rw [mapGet_mapSet]
      have hk : ({ w2 with rentalCount := w2.rentalCount + 1 } :
          Wheelchair).id = w2.id := rfl
      rw [if_neg (by rw [hk, (mapGet_eq_some hw2).2]; exact hbu)]
      exact hw

/-- Witness for C6: in the store with client 1 created, wheelchair 1 has
rental count 0; creating a reservation on it yields count 1, a reservation
on wheelchair 2 leaves it at 0, and update/put/delete leave the wheelchair
map unchanged. -/
theorem rental_counter_monotone_witness :
    getWheelchair witState1 1 = some witChair1v0 ∧
    getWheelchair (createReservation witState1 witInsertA).2 1 =
      some { witChair1v0 with rentalCount := 1 } ∧
    getWheelchair (createReservation witState1
      { witInsertA with wheelchairId := 2 }).2 1 = some witChair1v0 ∧
    (updateReservation witState1 1 witPatchC5).2.wheelchairsData =
      witState1.wheelchairsData ∧
    (putReservation witState1 1 witPatchC5).2.wheelchairsData =
      witState1.wheelchairsData ∧
    (deleteReservation witState1 1).2.wheelchairsData =
      witState1.wheelchairsData := by
  have h := rental_counter_monotone witState1 1 witChair1v0 (by decide)
  exact ⟨by decide, h.1 witInsertA rfl,
    h.2.1 { witInsertA with wheelchairId := 2 } (by decide),
    h.2.2.1 1 witPatchC5, h.2.2.2.1 1 witPatchC5, h.2.2.2.2 1⟩

/-- C7 counterexample: `storage.createReservation` with a wheelchair id that
resolves to no stored wheelchair (99 against the seed store) stores the
reservation while leaving the wheelchair map — hence every counter —
unchanged: the insert and the increment are not a both-or-neither unit. -/
theorem createReservation_not_atomic_cex :
    getWheelchair initialState c7Insert.wheelchairId = none ∧
    (createReservation initialState c7Insert).1 ∈
      (createReservation initialState c7Insert).2.reservationsData ∧
    (createReservation initialState c7Insert).2.wheelchairsData =
      initialState.wheelchairsData := by
  exact ⟨by decide, by decide, by decide⟩

/-- C7 amended: when the wheelchair id resolves, the insert and the
counter increment both take effect; when it does not resolve, the
reservation is still inserted and no wheelchair (hence no counter) changes. -/
theorem createReservation_insert_increment (st : StoreState)
    (body : InsertReservation) :
    (∀ w : Wheelchair, getWheelchair st body.wheelchairId = some w →
      (createReservation st body).1 ∈
        (createReservation st body).2.reservationsData ∧
      getWheelchair (createReservation st body).2 body.wheelchairId =
        some { w with rentalCount := w.rentalCount + 1 }) ∧
    (getWheelchair st body.wheelchairId = none →
      (createReservation st body).1 ∈
        (createReservation st body).2.reservationsData ∧
      (createReservation st body).2.wheelchairsData =
        st.wheelchairsData) := by
  have hfr := increment_frame
    { st with
      reservationsData := (mapSet (·.id) st.reservationsData
        { id := st.reservationCurrentId, clientId := body.clientId,
          wheelchairId := body.wheelchairId, startDate := body.startDate,
          endDate := body.endDate, status := "active",
          notes := body.notes })
      reservationCurrentId := st.reservationCurrentId + 1 }
    body.wheelchairId
  constructor
  · intro w hw
    constructor
    · show (createReservation st body).1 ∈
        (incrementWheelchairRentalCount _ body.wheelchairId).2.reservationsData
      rw [hfr.1]
      exact mem_mapSet_self _ _ _
    · show getWheelchair
        (incrementWheelchairRentalCount _ body.wheelchairId).2
        body.wheelchairId = _
      have hw1 : getWheelchair { st with
          reservationsData := (mapSet (·.id) st.reservationsData
            { id := st.reservationCurrentId, clientId := body.clientId,
              wheelchairId := body.wheelchairId, startDate := body.startDate,
              endDate := body.endDate, status := "active",
              notes := body.notes })
          reservationCurrentId := st.reservationCurrentId + 1 }
          body.wheelchairId = some w := hw
      rw [increment_wheelchairs_some hw1]
      show mapGet (·.id) (mapSet (·.id) st.wheelchairsData _)
        body.wheelchairId = _
      rw [mapGet_mapSet, if_pos (mapGet_eq_some hw).2]
  · intro hw
    constructor
    · show (createReservation st body).1 ∈
        (incrementWheelchairRentalCount _ body.wheelchairId).2.reservationsData
      rw [hfr.1]
      exact mem_mapSet_self _ _ _
    · show (incrementWheelchairRentalCount _
        body.wheelchairId).2.wheelchairsData = _
      have hw0 : getWheelchair { st with
          reservationsData := (mapSet (·.id) st.reservationsData
            { id := st.reservationCurrentId, clientId := body.clientId,
              wheelchairId := body.wheelchairId, startDate := body.startDate,
              endDate := body.endDate, status := "active",
              notes := body.notes })
          reservationCurrentId := st.reservationCurrentId + 1 }
          body.wheelchairId = none := hw
      rw [increment_wheelchairs_none hw0]

/-- Witness for C7 amended: both branches evaluated on concrete stores. -/
theorem createReservation_insert_increment_witness :
    (getWheelchair witState1 1 = some witChair1v0 ∧
      (createReservation witState1 witInsertA).1 ∈
        (createReservation witState1 witInsertA).2.reservationsData ∧
      getWheelchair (createReservation witState1 witInsertA).2 1 =
        some { witChair1v0 with rentalCount := 1 }) ∧
    (getWheelchair initialState 99 = none ∧
      (createReservation initialState c7Insert).1 ∈
        (createReservation initialState c7Insert).2.reservationsData ∧
      (createReservation initialState c7Insert).2.wheelchairsData =
        initialState.wheelchairsData) := by
  have h1 := (createReservation_insert_increment witState1 witInsertA).1
    witChair1v0 (by decide)
  have h2 := (createReservation_insert_increment initialState c7Insert).2
    (by decide)
  exact ⟨⟨by decide, h1.1, h1.2⟩, ⟨by decide, h2.1, h2.2⟩⟩

/-- C8.  `getDashboardStats` returns: active count = reservations with
status "active" and end date not before now; available = total wheelchairs
minus the number of distinct wheelchair ids referenced by that set (stated
via `Finset` cardinality); total wheelchairs and total clients = the map
sizes.  On the 3-wheelchair/1-active-reservation scenario it yields
available 2, total 3, active 1. -/
theorem dashboard_stats_correct (st : StoreState) (today : JSDate) :
    getDashboardStats st today =
      { availableWheelchairs := (st.wheelchairsData.length : Int) -
          ((((st.reservationsData.filter (fun r => r.status == "active" &&
            decide (today ≤ r.endDate))).map
              (·.wheelchairId)).toFinset.card : Nat) : Int)
        totalWheelchairs := st.wheelchairsData.length
        activeReservations := (st.reservationsData.filter
          (fun r => r.status == "active" &&
            decide (today ≤ r.endDate))).length
        totalClients := st.clientsData.length } ∧
    getDashboardStats statsExampleState statsExampleToday =
      { availableWheelchairs := 2, totalWheelchairs := 3,
        activeReservations := 1, totalClients := 1 } := by
  constructor
  · unfold getDashboardStats
    rw [List.card_toFinset]
  · decide

/-- C9 counterexample: a `PUT /clients/:id` whose patch carries a
`registerDate` — a field `clientSchema.partial()` accepts — succeeds and
overwrites the stored registration date. -/
theorem registerDate_mutable_cex :
    (putClient c9State 1 c9Patch).1 = .ok c9ClientAfter ∧
    getClient c9State 1 = some exClient ∧
    getClient (putClient c9State 1 c9Patch).2 1 = some c9ClientAfter ∧
    c9ClientAfter.registerDate ≠ exClient.registerDate := by
  exact ⟨by decide, by decide, by decide, by decide⟩

/-- C9 amended: an accepted client update whose patch does not carry
`registerDate` preserves every stored client's registration date. -/
theorem registerDate_preserved_without_patch (st : StoreState) (id : Nat)
    (p : ClientPatch) (hp : p.registerDate = none) (cid : Nat)
    (c0 c1 : Client) (h0 : getClient st cid = some c0)
    (h1 : getClient (putClient st id p).2 cid = some c1) :
    c1.registerDate = c0.registerDate := by
  have hcases : updateClient st id p = (none, st) ∨
      ∃ ex, mapGet (·.id) st.clientsData id = some ex ∧
        updateClient st id p = (some (mergeClient ex p),
          { st with clientsData := (mapSet (·.id) st.clientsData
            (mergeClient ex p)) }) := by
    unfold updateClient
    cases mapGet (·.id) st.clientsData id with
    | none => exact .inl rfl
    | some ex => exact .inr ⟨ex, rfl, rfl⟩
  rcases hcases with hcase | ⟨ex, hget, hcase⟩
  · unfold putClient at h1
    rw [hcase] at h1
    rw [h0] at h1
    injection h1 with h1
    rw [← h1]
  · unfold putClient at h1
    rw [hcase] at h1
    have h1' : mapGet (·.id) (mapSet (·.id) st.clientsData
        (mergeClient ex p)) cid = some c1 := h1
    rw [mapGet_mapSet] at h1'
    by_cases hcid : (mergeClient ex p).id = cid
    · rw [if_pos hcid] at h1'
      injection h1' with h1'
      have hexid : ex.id = id := (mapGet_eq_some hget).2
      have hexcid : ex.id = cid := hcid
      have hc0 : mapGet (·.id) st.clientsData cid = some ex := by
        rw [← hexcid, hexid]
        exact hget
      unfold getClient at h0
      rw [h0] at hc0
      injection hc0 with hc0
      rw [← h1', hc0]
      show p.registerDate.getD ex.registerDate = ex.registerDate
      rw [hp]
      rfl
    · rw [if_neg hcid] at h1'
      have : some c0 = some c1 := by rw [← h0, ← h1']; rfl
      injection this with h
      rw [← h]

/-- Witness for C9 amended: a patch changing only the phone number leaves
the registration date unchanged. -/
theorem registerDate_preserved_without_patch_witness :
    ((⟨none, none, none, none, some "700", none, none, none, none⟩ :
        ClientPatch).registerDate = none ∧
      getClient c9State 1 = some exClient ∧
      getClient (putClient c9State 1
        ⟨none, none, none, none, some "700", none, none, none, none⟩).2 1 =
        some { exClient with phone := "700" }) ∧
    ({ exClient with phone := "700" } : Client).registerDate =
      exClient.registerDate := by
  refine ⟨⟨by decide, by decide, by decide⟩, ?_⟩
  exact registerDate_preserved_without_patch c9State 1
    ⟨none, none, none, none, some "700", none, none, none, none⟩ (by decide)
    1 exClient { exClient with phone := "700" } (by decide) (by decide)

/-- C10.  `checkAvailability` judges a reservation only by status and
overlap, never by temporal expiry: an `active` reservation whose end date
lies before `today` still excludes its wheelchair from any overlapping
query, while `getActiveReservations` (and the dashboard's active set)
drops it; on the concrete one-wheelchair store the dashboard counts the
wheelchair available while `checkAvailability` over the past range returns
none. -/
theorem availability_ignores_expiry :
    (∀ (st : StoreState) (s e today : JSDate) (r : Reservation)
      (w : Wheelchair), r ∈ st.reservationsData → r.status = "active" →
      r.endDate < today → s ≤ r.endDate → r.startDate ≤ e →
      (w ∈ (checkAvailability st s e).availableWheelchairs →
        w.id ≠ r.wheelchairId) ∧
      r ∉ getActiveReservations st today) ∧
    ((getDashboardStats c10State c10Today).availableWheelchairs = 1 ∧
      (getDashboardStats c10State c10Today).activeReservations = 0 ∧
      checkAvailability c10State c10Start c10End =
        { available := false, availableWheelchairs := [] }) := by
  constructor
  · intro st s e today r w hr hact hexp hs he
    constructor
    · intro hw hid
      have hw' : w ∈ st.wheelchairsData.filter _ := hw
      rw [List.mem_filter] at hw'
      have h2' := hw'.2
      rw [Bool.not_eq_true', List.contains_eq_any_beq,
        List.any_eq_false] at h2'
      apply h2' r.wheelchairId ?_ (by simp [hid])
      exact List.mem_map.2
        ⟨r, List.mem_filter.2 ⟨hr, by simp [hs, he, hact]⟩, rfl⟩
    · intro hmem
      have hmem' : r ∈ st.reservationsData.filter
          (fun r => r.status == "active" && decide (today ≤ r.endDate)) := hmem
      rw [List.mem_filter] at hmem'
      have h2 := hmem'.2
      simp only [Bool.and_eq_true, beq_iff_eq, decide_eq_true_eq] at h2
      exact absurd h2.2 (not_le.2 hexp)
  · exact ⟨by decide, by decide, by decide⟩

/-- Witness for C10: the expired-but-active reservation of `c10State`
excludes wheelchair 1 from a query over its own (past) range, yet is not in
`getActiveReservations`. -/
theorem availability_ignores_expiry_witness :
    (c10Res ∈ c10State.reservationsData ∧ c10Res.endDate < c10Today) ∧
    ((exChair 1 ∈ (checkAvailability c10State c10Start
        c10End).availableWheelchairs → (exChair 1).id ≠ c10Res.wheelchairId) ∧
      c10Res ∉ getActiveReservations c10State c10Today) := by
  refine ⟨⟨by decide, by decide⟩, ?_⟩
  exact availability_ignores_expiry.1 c10State c10Start c10End c10Today
    c10Res (exChair 1) (by decide) (by decide) (by decide) (by decide)
    (by decide)

end Sillas
